import Mathlib

/-!
Shallow embedding of the rust-todo-cli task store (`src/todo.rs`).

Rust strings are modelled as Lean `String`; `str::trim` is modelled by
`rustTrim` (drop leading and trailing whitespace characters); methods that
take `&mut self` are modelled by explicit state passing, returning a pair
of the `Result` value and the post-call store.  serde_json persistence is
modelled at the JSON-value level (`Json`): `serde` serializes
`Vec<Task>` as a JSON array of objects with `description` (string) and
`status` (variant-name string) fields, and deserialization decodes the
same shape, failing on anything else.
-/

namespace TodoCli

/-- Model of Rust `str::trim` on the character list of a string:
drop leading whitespace, then drop trailing whitespace. -/
def trimChars (l : List Char) : List Char :=
  ((l.dropWhile Char.isWhitespace).reverse.dropWhile Char.isWhitespace).reverse

/-- Model of Rust `str::trim` on `String`. -/
def rustTrim (s : String) : String := ⟨trimChars s.data⟩

/-- Model of Rust `str::to_lowercase`: lower each character. -/
def rustToLower (s : String) : String := ⟨s.data.map Char.toLower⟩

/-- Rust `enum Status { Todo, InProgress, Completed }` (todo.rs, lines 35-40). -/
inductive Status where
  | Todo
  | InProgress
  | Completed
deriving DecidableEq

/-- Rust `impl Display for Status` (todo.rs, lines 42-50): the canonical textual
form written by the formatter. -/
def Status.display : Status → String
  | .Todo => "TODO"
  | .InProgress => "IN-PROGRESS"
  | .Completed => "DONE"

/-- Rust `enum TodoError` (todo.rs, lines 14-32).  The payloads of
`SerializationError` and `FileError` are library error values with no
observable structure here, so they are modelled as bare constructors. -/
inductive TodoError where
  | InvalidIndex
  | InvalidStatus (s : String)
  | IndexOutOfBound (i : Nat)
  | EmptyDescription
  | SerializationError
  | FileError
deriving DecidableEq

/-- Rust `Status::from_str` (todo.rs, lines 54-61): lowercase the input, then
match it against the alias table; the match arms are disjoint, so the
ordered `if` chain is equivalent to the Rust `match`. -/
def Status.fromStr (statusStr : String) : Except TodoError Status :=
  if rustToLower statusStr = "todo" ∨ rustToLower statusStr = "to-do" then .ok .Todo
  else if rustToLower statusStr = "done" ∨ rustToLower statusStr = "completed" then
    .ok .Completed
  else if rustToLower statusStr = "in-progress" ∨ rustToLower statusStr = "inprogress" then
    .ok .InProgress
  else .error (.InvalidStatus statusStr)

/-- Rust `struct Task { description: String, status: Status }` (todo.rs, lines 64-68). -/
structure Task where
  description : String
  status : Status
deriving DecidableEq

/-- Rust `Task::new` (todo.rs, lines 71-79): reject a description that is empty
after trimming, otherwise store the trimmed description with status Todo. -/
def Task.new (description : String) : Except TodoError Task :=
  if rustTrim description = "" then .error .EmptyDescription
  else .ok { description := rustTrim description, status := .Todo }

/-- Rust `Task::is_completed` (todo.rs, lines 82-84). -/
def Task.is_completed (t : Task) : Bool := t.status = Status.Completed

/-- Rust `struct TodoList { tasks: Vec<Task> }` (todo.rs, lines 93-96). -/
structure TodoList where
  tasks : List Task
deriving DecidableEq

/-- Rust `TodoList::new` (todo.rs, lines 99-101). -/
def TodoList.new : TodoList := ⟨[]⟩

/-- Rust `TodoList::len` (todo.rs, lines 112-114). -/
def TodoList.len (l : TodoList) : Nat := l.tasks.length

/-- Rust `TodoList::is_empty` (todo.rs, lines 116-118). -/
def TodoList.is_empty (l : TodoList) : Bool := l.tasks.isEmpty

/-- Rust `TodoList::add_tasks` (todo.rs, lines 105-109): validate through
`Task::new`, push on success; on error the store is unchanged. -/
def TodoList.add_tasks (l : TodoList) (description : String) :
    Except TodoError Unit × TodoList :=
  match Task.new description with
  | .ok t => (.ok (), ⟨l.tasks ++ [t]⟩)
  | .error e => (.error e, l)

/-- Rust `TodoList::list_tasks` (todo.rs, lines 121-127): enumerate and shift to
1-based indices. -/
def TodoList.list_tasks (l : TodoList) : List (Nat × Task) :=
  l.tasks.enum.map (fun p => (p.1 + 1, p.2))

/-- Rust `TodoList::filter_by_status` (todo.rs, lines 130-137): enumerate, keep
the pairs whose task has the given status, shift to 1-based indices. -/
def TodoList.filter_by_status (l : TodoList) (status : Status) : List (Nat × Task) :=
  (l.tasks.enum.filter (fun p => p.2.status = status)).map (fun p => (p.1 + 1, p.2))

/-- Rust `TodoList::validate_index` (todo.rs, lines 175-183). -/
def TodoList.validate_index (l : TodoList) (index : Nat) : Except TodoError Unit :=
  if index = 0 then .error .InvalidIndex
  else if index > l.tasks.length then .error (.IndexOutOfBound index)
  else .ok ()

/-- Rust `TodoList::update_task_status` (todo.rs, lines 140-148): validate the
index, then set `tasks[index - 1].status = new_status`.  After validation
`index - 1` is in bounds, so `List.modify` performs the in-place update. -/
def TodoList.update_task_status (l : TodoList) (index : Nat) (newStatus : Status) :
    Except TodoError Unit × TodoList :=
  match l.validate_index index with
  | .error e => (.error e, l)
  | .ok _ =>
      (.ok (), ⟨l.tasks.modify (fun t => { t with status := newStatus }) (index - 1)⟩)

/-- Rust `TodoList::update_task_status_str` (todo.rs, lines 151-159): parse the
status text, then delegate to `update_task_status`. -/
def TodoList.update_task_status_str (l : TodoList) (index : Nat) (statusStr : String) :
    Except TodoError Unit × TodoList :=
  match Status.fromStr statusStr with
  | .error e => (.error e, l)
  | .ok newStatus => l.update_task_status index newStatus

/-- Rust `TodoList::remove_task` (todo.rs, lines 162-165): validate the index,
then `Vec::remove(index - 1)`, returning the removed element while the
later elements shift down.  After validation the lookup cannot miss; the
`none` branch is unreachable. -/
def TodoList.remove_task (l : TodoList) (index : Nat) :
    Except TodoError Task × TodoList :=
  match l.validate_index index with
  | .error e => (.error e, l)
  | .ok _ =>
      match l.tasks[index - 1]? with
      | some t => (.ok t, ⟨l.tasks.eraseIdx (index - 1)⟩)
      | none => (.error .InvalidIndex, l)

/-- Rust `TodoList::clear_completed` (todo.rs, lines 168-172): retain the tasks
that are not completed and return how many were dropped. -/
def TodoList.clear_completed (l : TodoList) : Nat × TodoList :=
  let remaining := l.tasks.filter (fun t => ! t.is_completed)
  (l.tasks.length - remaining.length, ⟨remaining⟩)

/-- JSON values, the data model of serde_json as far as this program's
persisted representation reaches. -/
inductive Json where
  | null
  | bool (b : Bool)
  | num (n : Int)
  | str (s : String)
  | arr (xs : List Json)
  | obj (fields : List (String × Json))

/-- serde serialization of `Status`: a unit enum variant serializes as its
variant-name string. -/
def Status.toJson : Status → Json
  | .Todo => .str "Todo"
  | .InProgress => .str "InProgress"
  | .Completed => .str "Completed"

/-- serde deserialization of `Status`: accept exactly the three variant-name
strings. -/
def Status.fromJson : Json → Except TodoError Status
  | .str "Todo" => .ok .Todo
  | .str "InProgress" => .ok .InProgress
  | .str "Completed" => .ok .Completed
  | _ => .error .SerializationError

/-- Field lookup in a JSON object, as serde's struct deserializer does by
field name. -/
def jsonField (fields : List (String × Json)) (name : String) : Except TodoError Json :=
  match fields.find? (fun p => p.1 = name) with
  | some p => .ok p.2
  | none => .error .SerializationError

/-- serde serialization of `Task`: an object with the two named fields. -/
def Task.toJson (t : Task) : Json :=
  .obj [("description", .str t.description), ("status", t.status.toJson)]

/-- serde deserialization of `Task`: both fields must be present and
well-typed. -/
def Task.fromJson (j : Json) : Except TodoError Task :=
  match j with
  | .obj fields => do
      let d ← jsonField fields "description"
      let s ← jsonField fields "status"
      match d with
      | .str desc => do
          let st ← Status.fromJson s
          pure { description := desc, status := st }
      | _ => .error .SerializationError
  | _ => .error .SerializationError

/-- Rust `Storable::save for TodoList` (todo.rs, lines 187-192), at the
JSON-value level: `serde_json::to_string_pretty(&self.tasks)` renders the
task vector as a JSON array of task objects (the file write itself has no
observable effect on the data). -/
def TodoList.save (l : TodoList) : Json := .arr (l.tasks.map Task.toJson)

/-- Rust `Storable::load for TodoList` (todo.rs, lines 194-202), at the
JSON-value level: deserialize a JSON array of task objects into
`TodoList { tasks }`, failing with a serialization error on any other
shape. -/
def TodoList.load (j : Json) : Except TodoError TodoList :=
  match j with
  | .arr xs => do
      let tasks ← xs.mapM Task.fromJson
      pure (⟨tasks⟩ : TodoList)
  | _ => .error .SerializationError

/-- One mutating TaskStore operation, as dispatched by the interpreter. -/
inductive Op where
  | add (d : String)
  | update (i : Nat) (s : Status)
  | updateStr (i : Nat) (s : String)
  | remove (i : Nat)
  | clear

/-- Apply one mutating operation to a store, keeping the post-call store
(the `Result` value is dropped: on error every operation leaves the store
unchanged). -/
def TodoList.applyOp (l : TodoList) : Op → TodoList
  | .add d => (l.add_tasks d).2
  | .update i s => (l.update_task_status i s).2
  | .updateStr i s => (l.update_task_status_str i s).2
  | .remove i => (l.remove_task i).2
  | .clear => (l.clear_completed).2

/-- Run a sequence of mutating operations from the empty store. -/
def TodoList.runOps (ops : List Op) : TodoList :=
  ops.foldl TodoList.applyOp TodoList.new

/-- Well-formedness of a task: its description is fixed under trimming and
non-empty. -/
def Task.Wf (t : Task) : Prop :=
  rustTrim t.description = t.description ∧ t.description ≠ ""

/-- Well-formedness of a store: every task in it is well-formed. -/
def TodoList.Wf (l : TodoList) : Prop := ∀ t ∈ l.tasks, t.Wf

/-! ### Helper lemmas about trimming -/

theorem dropWhile_head?_false {p : Char → Bool} (l : List Char) (c : Char)
    (h : (l.dropWhile p).head? = some c) : p c = false := by
  induction l with
  | nil => simp at h
  | cons a t ih =>
      cases hpa : p a with
      | true =>
          rw [List.dropWhile_cons, hpa] at h
          simp at h
          exact ih h
      | false =>
          rw [List.dropWhile_cons, hpa] at h
          simp at h
          rw [← h]
          exact hpa

theorem dropWhile_eq_self_of_head?_false {p : Char → Bool} (l : List Char)
    (h : ∀ c, l.head? = some c → p c = false) : l.dropWhile p = l := by
  cases l with
  | nil => rfl
  | cons a t => rw [List.dropWhile_cons, h a rfl]; simp

theorem dropWhile_idem {p : Char → Bool} (l : List Char) :
    (l.dropWhile p).dropWhile p = l.dropWhile p :=
  dropWhile_eq_self_of_head?_false _ (dropWhile_head?_false l)

theorem trimChars_head?_false (l : List Char) (c : Char)
    (h : (trimChars l).head? = some c) : c.isWhitespace = false := by
  obtain ⟨ys, hys⟩ :=
    List.dropWhile_suffix (l := (l.dropWhile Char.isWhitespace).reverse)
      Char.isWhitespace
  have hd1 : l.dropWhile Char.isWhitespace = trimChars l ++ ys.reverse := by
    have h2 := congrArg List.reverse hys
    rw [List.reverse_append, List.reverse_reverse] at h2
    exact h2.symm
  apply dropWhile_head?_false l c
  cases htr : trimChars l with
  | nil => rw [htr] at h; simp at h
  | cons x xs =>
      rw [htr] at h
      simp at h
      rw [hd1, htr]
      simpa using h

theorem trimChars_idem (l : List Char) : trimChars (trimChars l) = trimChars l := by
  have h1 : (trimChars l).dropWhile Char.isWhitespace = trimChars l :=
    dropWhile_eq_self_of_head?_false _ (trimChars_head?_false l)
  show (((trimChars l).dropWhile Char.isWhitespace).reverse.dropWhile
      Char.isWhitespace).reverse = trimChars l
  rw [h1]
  show (((((l.dropWhile Char.isWhitespace).reverse.dropWhile
      Char.isWhitespace).reverse).reverse.dropWhile Char.isWhitespace).reverse)
      = trimChars l
  rw [List.reverse_reverse, dropWhile_idem]
  rfl

theorem rustTrim_idem (s : String) : rustTrim (rustTrim s) = rustTrim s :=
  String.ext (trimChars_idem s.data)

/-! ### C5: add with empty trimmed description -/

/-- C5: for every description that is empty after trimming, `add_tasks`
fails with `EmptyDescription` and returns the store unchanged. -/
theorem add_tasks_empty_description (l : TodoList) (D : String)
    (h : rustTrim D = "") : l.add_tasks D = (.error .EmptyDescription, l) := by
  simp [TodoList.add_tasks, Task.new, h]

/-- Witness for C5 at the two inputs named by the claim. -/
theorem add_tasks_empty_description_witness :
    (⟨[⟨"a", .Todo⟩]⟩ : TodoList).add_tasks "" =
      (.error .EmptyDescription, ⟨[⟨"a", .Todo⟩]⟩) ∧
    (⟨[⟨"a", .Todo⟩]⟩ : TodoList).add_tasks "   " =
      (.error .EmptyDescription, ⟨[⟨"a", .Todo⟩]⟩) :=
  ⟨add_tasks_empty_description _ _ (by decide),
   add_tasks_empty_description _ _ (by decide)⟩

/-! ### C4: successful add -/

/-- C4: for every description whose trim is non-empty, `add_tasks` succeeds
and appends exactly one task carrying the trimmed description and status
Todo at the new highest 1-based index, every earlier task keeping its
position and contents in `list_tasks`. -/
theorem add_tasks_ok (l : TodoList) (D : String) (h : rustTrim D ≠ "") :
    ∃ l2, l.add_tasks D = (.ok (), l2) ∧
      l2.len = l.len + 1 ∧
      l2.list_tasks = l.list_tasks ++ [(l.len + 1, ⟨rustTrim D, .Todo⟩)] := by
  refine ⟨⟨l.tasks ++ [⟨rustTrim D, .Todo⟩]⟩, ?_, ?_, ?_⟩
  · simp [TodoList.add_tasks, Task.new, h]
  · simp [TodoList.len]
  · simp [TodoList.list_tasks, TodoList.len, List.enum_append, List.enumFrom_cons]

/-- Witness for C4: add " buy milk " to a one-task store. -/
theorem add_tasks_ok_witness :
    ∃ l2, (⟨[⟨"a", .Todo⟩]⟩ : TodoList).add_tasks " buy milk " = (.ok (), l2) ∧
      l2.len = (⟨[⟨"a", .Todo⟩]⟩ : TodoList).len + 1 ∧
      l2.list_tasks = (⟨[⟨"a", .Todo⟩]⟩ : TodoList).list_tasks ++
        [((⟨[⟨"a", .Todo⟩]⟩ : TodoList).len + 1, ⟨rustTrim " buy milk ", .Todo⟩)] :=
  add_tasks_ok _ _ (by decide)

/-! ### Index validation helpers -/

theorem validate_index_ok (l : TodoList) (k : Nat) (h1 : 1 ≤ k) (h2 : k ≤ l.len) :
    l.validate_index k = .ok () := by
  simp only [TodoList.len] at h2
  rw [TodoList.validate_index, if_neg (by omega), if_neg (by omega)]

theorem validate_index_zero (l : TodoList) :
    l.validate_index 0 = .error .InvalidIndex := by
  rw [TodoList.validate_index, if_pos rfl]

theorem validate_index_oob (l : TodoList) (i : Nat) (h : l.len < i) :
    l.validate_index i = .error (.IndexOutOfBound i) := by
  simp only [TodoList.len] at h
  rw [TodoList.validate_index, if_neg (by omega), if_pos (by omega)]

/-! ### C2: updateStatus -/

/-- C2: on a store with `len` tasks, `update_task_status 0 s` fails with
`InvalidIndex`; `update_task_status i s` for `i > len` fails with
`IndexOutOfBound i` (the caller's 1-based index); and for `1 ≤ k ≤ len` it
succeeds, replaces task k's status by `s` while keeping its description,
and leaves every other position and the length unchanged.  The error cases
also leave the store unchanged. -/
theorem update_task_status_spec (l : TodoList) (s : Status) :
    l.update_task_status 0 s = (.error .InvalidIndex, l) ∧
    (∀ i, l.len < i → l.update_task_status i s = (.error (.IndexOutOfBound i), l)) ∧
    (∀ k, 1 ≤ k → k ≤ l.len →
      ∃ l2 t, l.update_task_status k s = (.ok (), l2) ∧
        l.tasks[k - 1]? = some t ∧
        l2.len = l.len ∧
        l2.tasks[k - 1]? = some ⟨t.description, s⟩ ∧
        ∀ j, j ≠ k - 1 → l2.tasks[j]? = l.tasks[j]?) := by
  refine ⟨?_, ?_, ?_⟩
  · rw [TodoList.update_task_status, validate_index_zero]
  · intro i hi
    rw [TodoList.update_task_status, validate_index_oob l i hi]
  · intro k h1 h2
    have hk : k - 1 < l.tasks.length := by
      simp only [TodoList.len] at h2; omega
    refine ⟨⟨l.tasks.modify (fun t => { t with status := s }) (k - 1)⟩,
      l.tasks.get ⟨k - 1, hk⟩, ?_, ?_, ?_, ?_, ?_⟩
    · rw [TodoList.update_task_status, validate_index_ok l k h1 h2]
    · simp [List.getElem?_eq_getElem hk]
    · simp [TodoList.len, List.length_modify]
    · simp [List.getElem?_modify, List.getElem?_eq_getElem hk]
    · intro j hj
      simp [List.getElem?_modify, Ne.symm hj]

/-- Witness for C2 on a two-task store: index 0, index 3 and index 2. -/
theorem update_task_status_spec_witness :
    (⟨[⟨"a", .Todo⟩, ⟨"b", .Todo⟩]⟩ : TodoList).update_task_status 0 .Completed =
      (.error .InvalidIndex, ⟨[⟨"a", .Todo⟩, ⟨"b", .Todo⟩]⟩) ∧
    (⟨[⟨"a", .Todo⟩, ⟨"b", .Todo⟩]⟩ : TodoList).update_task_status 3 .Completed =
      (.error (.IndexOutOfBound 3), ⟨[⟨"a", .Todo⟩, ⟨"b", .Todo⟩]⟩) ∧
    (∃ l2 t,
      (⟨[⟨"a", .Todo⟩, ⟨"b", .Todo⟩]⟩ : TodoList).update_task_status 2 .Completed =
        (.ok (), l2) ∧
      (⟨[⟨"a", .Todo⟩, ⟨"b", .Todo⟩]⟩ : TodoList).tasks[2 - 1]? = some t ∧
      l2.len = (⟨[⟨"a", .Todo⟩, ⟨"b", .Todo⟩]⟩ : TodoList).len ∧
      l2.tasks[2 - 1]? = some ⟨t.description, .Completed⟩ ∧
      ∀ j, j ≠ 2 - 1 →
        l2.tasks[j]? = (⟨[⟨"a", .Todo⟩, ⟨"b", .Todo⟩]⟩ : TodoList).tasks[j]?) :=
  ⟨(update_task_status_spec _ _).1,
   (update_task_status_spec _ _).2.1 3 (by decide),
   (update_task_status_spec _ _).2.2 2 (by decide) (by decide)⟩

/-! ### C3: remove -/

/-- C3: `remove_task` validates the index exactly as `update_task_status`
(0 is `InvalidIndex`, `i > len` is `IndexOutOfBound i`), and for
`1 ≤ k ≤ len` returns the task formerly at position k, shortens the store
by exactly one, keeps positions below k unchanged and shifts every later
task down by one position. -/
theorem remove_task_spec (l : TodoList) :
    l.remove_task 0 = (.error .InvalidIndex, l) ∧
    (∀ i, l.len < i → l.remove_task i = (.error (.IndexOutOfBound i), l)) ∧
    (∀ k, 1 ≤ k → k ≤ l.len →
      ∃ t l2, l.remove_task k = (.ok t, l2) ∧
        l.tasks[k - 1]? = some t ∧
        l2.len = l.len - 1 ∧
        (∀ j, j < k - 1 → l2.tasks[j]? = l.tasks[j]?) ∧
        (∀ j, k - 1 ≤ j → l2.tasks[j]? = l.tasks[j + 1]?)) := by
  refine ⟨?_, ?_, ?_⟩
  · rw [TodoList.remove_task, validate_index_zero]
  · intro i hi
    rw [TodoList.remove_task, validate_index_oob l i hi]
  · intro k h1 h2
    have hk : k - 1 < l.tasks.length := by
      simp only [TodoList.len] at h2; omega
    refine ⟨l.tasks.get ⟨k - 1, hk⟩, ⟨l.tasks.eraseIdx (k - 1)⟩, ?_, ?_, ?_, ?_, ?_⟩
    · rw [TodoList.remove_task, validate_index_ok l k h1 h2]
      simp [List.getElem?_eq_getElem hk]
    · simp [List.getElem?_eq_getElem hk]
    · simp [TodoList.len, List.length_eraseIdx, hk]
    · intro j hj
      simp [List.getElem?_eraseIdx, hj]
    · intro j hj
      simp [List.getElem?_eraseIdx, if_neg (by omega : ¬ j < k - 1)]

/-- Witness for C3 on a three-task store: index 0, index 4 and index 2. -/
theorem remove_task_spec_witness :
    (⟨[⟨"a", .Todo⟩, ⟨"b", .InProgress⟩, ⟨"c", .Completed⟩]⟩ : TodoList).remove_task 0 =
      (.error .InvalidIndex, ⟨[⟨"a", .Todo⟩, ⟨"b", .InProgress⟩, ⟨"c", .Completed⟩]⟩) ∧
    (⟨[⟨"a", .Todo⟩, ⟨"b", .InProgress⟩, ⟨"c", .Completed⟩]⟩ : TodoList).remove_task 4 =
      (.error (.IndexOutOfBound 4),
        ⟨[⟨"a", .Todo⟩, ⟨"b", .InProgress⟩, ⟨"c", .Completed⟩]⟩) ∧
    (∃ t l2,
      (⟨[⟨"a", .Todo⟩, ⟨"b", .InProgress⟩, ⟨"c", .Completed⟩]⟩ : TodoList).remove_task 2 =
        (.ok t, l2) ∧
      (⟨[⟨"a", .Todo⟩, ⟨"b", .InProgress⟩, ⟨"c", .Completed⟩]⟩ : TodoList).tasks[2 - 1]? =
        some t ∧
      l2.len = (⟨[⟨"a", .Todo⟩, ⟨"b", .InProgress⟩, ⟨"c", .Completed⟩]⟩ : TodoList).len - 1 ∧
      (∀ j, j < 2 - 1 → l2.tasks[j]? =
        (⟨[⟨"a", .Todo⟩, ⟨"b", .InProgress⟩, ⟨"c", .Completed⟩]⟩ : TodoList).tasks[j]?) ∧
      (∀ j, 2 - 1 ≤ j → l2.tasks[j]? =
        (⟨[⟨"a", .Todo⟩, ⟨"b", .InProgress⟩, ⟨"c", .Completed⟩]⟩ : TodoList).tasks[j + 1]?)) :=
  ⟨(remove_task_spec _).1,
   (remove_task_spec _).2.1 4 (by decide),
   (remove_task_spec _).2.2 2 (by decide) (by decide)⟩

/-! ### C6: clearCompleted -/

/-- C6: `clear_completed` keeps exactly the non-Completed tasks in their
original relative order (the result is the order-preserving sublist of
tasks that are not completed) and returns how many Completed tasks were
removed; on `[Todo, Completed, InProgress, Completed]` it returns 2 and
leaves `[Todo, InProgress]`. -/
theorem clear_completed_spec (l : TodoList) :
    (l.clear_completed).2.tasks = l.tasks.filter (fun t => ! t.is_completed) ∧
    (l.clear_completed).2.tasks.Sublist l.tasks ∧
    (l.clear_completed).1 = l.tasks.countP (fun t => t.is_completed) ∧
    TodoList.clear_completed
        ⟨[⟨"a", .Todo⟩, ⟨"b", .Completed⟩, ⟨"c", .InProgress⟩, ⟨"d", .Completed⟩]⟩ =
      (2, ⟨[⟨"a", .Todo⟩, ⟨"c", .InProgress⟩]⟩) := by
  refine ⟨rfl, List.filter_sublist _, ?_, by decide⟩
  show l.tasks.length - (l.tasks.filter (fun t => ! t.is_completed)).length
      = l.tasks.countP (fun t => t.is_completed)
  rw [← List.countP_eq_length_filter]
  have h := List.length_eq_countP_add_countP (fun t => t.is_completed) l.tasks
  have hc : l.tasks.countP (fun a => decide ¬(a.is_completed = true))
      = l.tasks.countP (fun t => ! t.is_completed) :=
    List.countP_congr (fun a _ => by simp)
  rw [hc] at h
  omega

/-! ### C8: filterByStatus -/

/-- C8: `filter_by_status` returns exactly the entries of `list_tasks`
whose task has the requested status, in the same order and carrying their
original pre-filter 1-based indices. -/
theorem filter_by_status_spec (l : TodoList) (s : Status) :
    l.filter_by_status s = (l.list_tasks).filter (fun p => p.2.status = s) := by
  rw [TodoList.filter_by_status, TodoList.list_tasks, List.filter_map]
  rfl

/-! ### C7: status parsing -/

/-- C7: status parsing is case-insensitive (it depends on the input only
through its lowercasing) over exactly the alias sets todo/to-do,
in-progress/inprogress and done/completed, and every other input fails with
`InvalidStatus` carrying the original input text. -/
theorem from_str_spec :
    (∀ t : String, Status.fromStr t = .ok .Todo ↔
      (rustToLower t = "todo" ∨ rustToLower t = "to-do")) ∧
    (∀ t : String, Status.fromStr t = .ok .InProgress ↔
      (rustToLower t = "in-progress" ∨ rustToLower t = "inprogress")) ∧
    (∀ t : String, Status.fromStr t = .ok .Completed ↔
      (rustToLower t = "done" ∨ rustToLower t = "completed")) ∧
    (∀ t : String,
      rustToLower t ≠ "todo" → rustToLower t ≠ "to-do" →
      rustToLower t ≠ "in-progress" → rustToLower t ≠ "inprogress" →
      rustToLower t ≠ "done" → rustToLower t ≠ "completed" →
      Status.fromStr t = .error (.InvalidStatus t)) ∧
    Status.fromStr "todo" = .ok .Todo ∧
    Status.fromStr "To-Do" = .ok .Todo ∧
    Status.fromStr "DONE" = .ok .Completed ∧
    Status.fromStr "completed" = .ok .Completed ∧
    Status.fromStr "in-progress" = .ok .InProgress ∧
    Status.fromStr "InProgress" = .ok .InProgress ∧
    Status.fromStr "doing" = .error (.InvalidStatus "doing") := by
  refine ⟨?_, ?_, ?_, ?_, rfl, rfl, rfl, rfl, rfl, rfl, rfl⟩
  · intro t
    unfold Status.fromStr
    split_ifs with h1 h2 h3
    · exact iff_of_true rfl h1
    · exact iff_of_false (by simp) h1
    · exact iff_of_false (by simp) h1
    · exact iff_of_false (by simp) h1
  · intro t
    unfold Status.fromStr
    split_ifs with h1 h2 h3
    · exact iff_of_false (by simp) (by rcases h1 with h | h <;> rw [h] <;> decide)
    · exact iff_of_false (by simp) (by rcases h2 with h | h <;> rw [h] <;> decide)
    · exact iff_of_true rfl h3
    · exact iff_of_false (by simp) h3
  · intro t
    unfold Status.fromStr
    split_ifs with h1 h2 h3
    · exact iff_of_false (by simp) (by rcases h1 with h | h <;> rw [h] <;> decide)
    · exact iff_of_true rfl h2
    · exact iff_of_false (by simp) h2
    · exact iff_of_false (by simp) h2
  · intro t h1 h2 h3 h4 h5 h6
    unfold Status.fromStr
    rw [if_neg (by simp [h1, h2]), if_neg (by simp [h5, h6]),
      if_neg (by simp [h3, h4])]

/-- Witness for C7: an unrecognized input fails carrying the input itself,
and an uppercase alias parses. -/
theorem from_str_spec_witness :
    Status.fromStr "Doing" = .error (.InvalidStatus "Doing") ∧
    Status.fromStr "TO-DO" = .ok .Todo :=
  ⟨from_str_spec.2.2.2.1 "Doing" (by decide) (by decide) (by decide) (by decide)
      (by decide) (by decide),
   (from_str_spec.1 "TO-DO").mpr (by decide)⟩

/-! ### C10: Display and from_str agree -/

/-- C10: parsing the canonical Display rendering of any status value
("TODO" for Todo, "IN-PROGRESS" for InProgress, "DONE" for Completed)
yields that status back: the formatter and the alias table do not drift. -/
theorem from_str_display_roundtrip :
    (∀ s : Status, Status.fromStr s.display = .ok s) ∧
    Status.display .Todo = "TODO" ∧
    Status.display .InProgress = "IN-PROGRESS" ∧
    Status.display .Completed = "DONE" :=
  ⟨fun s => by cases s <;> rfl, rfl, rfl, rfl⟩

/-! ### C1: persistence round-trip -/

theorem task_to_from_json (t : Task) : Task.fromJson (Task.toJson t) = .ok t := by
  obtain ⟨d, st⟩ := t
  cases st <;> rfl

theorem mapM_to_from_json (ts : List Task) :
    (ts.map Task.toJson).mapM Task.fromJson = .ok ts := by
  induction ts with
  | nil => rfl
  | cons t ts ih =>
      rw [List.map_cons, List.mapM_cons, task_to_from_json t, ih]
      rfl

/-- C1: for every store, deserializing its serialized representation
succeeds and reproduces the store exactly, in particular with the identical
ordered sequence of (description, status) pairs. -/
theorem load_save_roundtrip (l : TodoList) :
    TodoList.load (TodoList.save l) = .ok l := by
  show (do
    let tasks ← (l.tasks.map Task.toJson).mapM Task.fromJson
    pure (⟨tasks⟩ : TodoList)) = .ok l
  rw [mapM_to_from_json]
  rfl

/-! ### C9: the trimmed-description invariant -/

theorem mem_modify {α : Type} (f : α → α) (n : Nat) (l : List α) (a : α)
    (h : a ∈ List.modify f n l) : a ∈ l ∨ ∃ b, b ∈ l ∧ a = f b := by
  rw [List.mem_iff_getElem?] at h
  obtain ⟨j, hj⟩ := h
  rw [List.getElem?_modify] at hj
  cases hx : l[j]? with
  | none => rw [hx] at hj; simp at hj
  | some b =>
      rw [hx] at hj
      simp only [Option.map_eq_map, Option.map_some'] at hj
      injection hj with hj
      by_cases hnj : n = j
      · rw [if_pos hnj] at hj
        exact Or.inr ⟨b, List.mem_iff_getElem?.mpr ⟨j, hx⟩, hj.symm⟩
      · rw [if_neg hnj] at hj
        rw [← hj]
        exact Or.inl (List.mem_iff_getElem?.mpr ⟨j, hx⟩)

theorem wf_add (l : TodoList) (d : String) (h : l.Wf) : ((l.add_tasks d).2).Wf := by
  rw [TodoList.add_tasks]
  cases hnew : Task.new d with
  | error e => exact h
  | ok t =>
      intro x hx
      simp only [List.mem_append, List.mem_singleton] at hx
      rcases hx with hx | hx
      · exact h x hx
      · subst hx
        rw [Task.new] at hnew
        by_cases hg : rustTrim d = ""
        · rw [if_pos hg] at hnew; cases hnew
        · rw [if_neg hg] at hnew
          injection hnew with h2
          subst h2
          exact ⟨rustTrim_idem d, hg⟩

theorem wf_update (l : TodoList) (i : Nat) (s : Status) (h : l.Wf) :
    ((l.update_task_status i s).2).Wf := by
  rw [TodoList.update_task_status]
  cases hv : l.validate_index i with
  | error e => exact h
  | ok u =>
      intro x hx
      rcases mem_modify _ _ _ _ hx with hx2 | ⟨b, hb, hbe⟩
      · exact h x hx2
      · subst hbe
        exact h b hb

theorem wf_remove (l : TodoList) (i : Nat) (h : l.Wf) : ((l.remove_task i).2).Wf := by
  rw [TodoList.remove_task]
  cases hv : l.validate_index i with
  | error e => exact h
  | ok u =>
      cases hx : l.tasks[i - 1]? with
      | none => exact h
      | some t =>
          intro x hxm
          exact h x (List.Sublist.mem hxm (List.eraseIdx_sublist _ _))

theorem wf_clear (l : TodoList) (h : l.Wf) : ((l.clear_completed).2).Wf := by
  intro x hx
  exact h x (List.mem_of_mem_filter hx)

theorem wf_applyOp (l : TodoList) (op : Op) (h : l.Wf) : (l.applyOp op).Wf := by
  cases op with
  | add d => exact wf_add l d h
  | update i s => exact wf_update l i s h
  | updateStr i s =>
      rw [TodoList.applyOp, TodoList.update_task_status_str]
      cases Status.fromStr s with
      | error e => exact h
      | ok st => exact wf_update l i st h
  | remove i => exact wf_remove l i h
  | clear => exact wf_clear l h

theorem wf_foldl (ops : List Op) (l : TodoList) (h : l.Wf) :
    (ops.foldl TodoList.applyOp l).Wf := by
  induction ops generalizing l with
  | nil => exact h
  | cons op ops ih => exact ih _ (wf_applyOp l op h)

/-- C9: starting from the empty store, no sequence of add / updateStatus /
updateStatusFromText / remove / clearCompleted operations can produce a
task whose description is not fixed under trimming or is empty: every task
ever present was created through the trimming, validating constructor and
later operations only touch statuses or drop whole tasks. -/
theorem runOps_wf (ops : List Op) (t : Task)
    (ht : t ∈ (TodoList.runOps ops).tasks) :
    rustTrim t.description = t.description ∧ t.description ≠ "" := by
  have hbase : TodoList.new.Wf := by
    intro x hx
    simp [TodoList.new] at hx
  exact wf_foldl ops TodoList.new hbase t ht

/-- Witness for C9: one add of an untrimmed description from the empty
store produces the trimmed, non-empty task. -/
theorem runOps_wf_witness :
    rustTrim ((⟨"buy milk", .Todo⟩ : Task).description) =
      (⟨"buy milk", .Todo⟩ : Task).description ∧
    (⟨"buy milk", .Todo⟩ : Task).description ≠ "" :=
  runOps_wf [.add " buy milk "] ⟨"buy milk", .Todo⟩ (by decide)

end TodoCli
